import Mathlib

/-!
Verification of the Meet-Booking-Assistant repository (Flask-SocketIO chat app
driving a Google-Calendar scheduling agent).

Shallow embedding conventions:
* Instants are modelled as integers counting minutes (a `timedelta(minutes=n)`
  is the integer `n`); busy intervals and slots are pairs `(start, end)`.
* The Google Calendar backend is an explicit oracle parameter: the free/busy
  query is a function from the queried window to either a busy list or an
  exception message (a raised exception in the Python source), and the event
  insert is recorded in the result so that theorems can speak about whether a
  backend call was made.
* Python exceptions are `Except String`.
-/

/-- Half-open overlap test from `get_available_slots_on_calender`
(src/calendar_integrations.py lines 67-71):
`start_dt < busy[1] and slot_end > busy[0]`. -/
def overlaps (start_dt slot_end : Int) (busy : Int × Int) : Bool :=
  decide (start_dt < busy.2 ∧ slot_end > busy.1)

/-- The scanning `while` loop of `get_available_slots_on_calender`
(src/calendar_integrations.py lines 62-76): starting at `start_dt`, propose
`[start_dt, start_dt + duration_minutes)` while it fits before `end_dt`; keep it
when it overlaps no busy interval; always advance the cursor by the hardcoded
stride of 30 minutes (`start_dt += timedelta(minutes=30)`). -/
def availLoop (start_dt end_dt duration_minutes : Int)
    (busy_slots : List (Int × Int)) : List (Int × Int) :=
  if h : start_dt + duration_minutes ≤ end_dt then
    let slot_end := start_dt + duration_minutes
    let rest := availLoop (start_dt + 30) end_dt duration_minutes busy_slots
    if busy_slots.any (fun busy => overlaps start_dt slot_end busy) then rest
    else (start_dt, slot_end) :: rest
  else []
termination_by (end_dt - duration_minutes - start_dt + 30).toNat
decreasing_by
  simp_wf
  omega

/-- Errors a caller of the availability fetch can observe.  The source never
raises `InvalidWindow`; the constructor exists so the spec's claim about it can
be stated.  `BackendException` is an exception propagating out of the
`service.freebusy().query(...).execute()` call. -/
inductive CalendarError
  | InvalidWindow
  | BackendException (msg : String)
deriving DecidableEq, Repr

/-- `get_available_slots_on_calender(start, end, duration_minutes=30)`
(src/calendar_integrations.py lines 40-76).  The function unconditionally
issues the free/busy query (`backend start endT`) — there is no window
validation — then runs the scanning loop and returns
`(available_slots, busy_slots)`. `endT` is the source's `end` parameter
(a Lean keyword). -/
def get_available_slots_on_calender
    (backend : Int → Int → Except String (List (Int × Int)))
    (start endT : Int) (duration_minutes : Int := 30) :
    Except CalendarError (List (Int × Int) × List (Int × Int)) :=
  match backend start endT with
  | .error e => .error (.BackendException e)
  | .ok busy_slots =>
      .ok (availLoop start endT duration_minutes busy_slots, busy_slots)

/-- The calendar event body built by `book_slot_on_calendar`
(src/calendar_integrations.py lines 96-113). -/
structure Event where
  summary : String
  description : String
  startT : Int
  endT : Int
  timeZone : String
  requestId : String
deriving DecidableEq, Repr

/-- Time parsing of `book_slot_on_calendar` (src/calendar_integrations.py
lines 85-91): try `datetime.fromisoformat`, on `ValueError` fall back to
`dateparser.parse` (which yields `None` on failure).  Both parsers are
oracles. -/
def parse_slot (fromisoformat dateparser_parse : String → Option Int)
    (slot : String) : Option Int :=
  match fromisoformat slot with
  | some start_dt => some start_dt
  | none => dateparser_parse slot

/-- `book_slot_on_calendar(slot)` (src/calendar_integrations.py lines 78-122).
Returns the Python return value (or a propagated backend exception) paired
with the event passed to `service.events().insert`, `none` when no insert
call was made.  `uuid` is the generated request id, `strftime` the
`'%d %b %I:%M %p'` formatter, and `insertBackend` answers an insert request
with the created event's optional `hangoutLink` or raises. -/
def book_slot_on_calendar (fromisoformat dateparser_parse : String → Option Int)
    (uuid : String) (strftime : Int → String)
    (insertBackend : Event → Except String (Option String))
    (slot : String) : Except String String × Option Event :=
  match parse_slot fromisoformat dateparser_parse slot with
  | none =>
      (.ok "Could not understand the time slot. Please use a format like '2025-05-30T09:00:00+05:30'.",
       none)
  | some start_dt =>
      let end_dt := start_dt + 30
      let event : Event :=
        { summary := "Meeting with Zeeshan"
          description := "Auto-scheduled via assistant."
          startT := start_dt
          endT := end_dt
          timeZone := "Asia/Kolkata"
          requestId := uuid }
      match insertBackend event with
      | .error e => (.error e, some event)
      | .ok link? =>
          let meet_link := link?.getD "No meet link generated"
          (.ok ("Slot booked for " ++ strftime start_dt ++ ". Meet link: " ++ meet_link),
           some event)

/-- Unfolding equation for the scan loop, in `ite` form. -/
theorem availLoop_eq (start_dt end_dt duration_minutes : Int)
    (busy_slots : List (Int × Int)) :
    availLoop start_dt end_dt duration_minutes busy_slots =
      if start_dt + duration_minutes ≤ end_dt then
        (if busy_slots.any
            (fun busy => overlaps start_dt (start_dt + duration_minutes) busy) then
          availLoop (start_dt + 30) end_dt duration_minutes busy_slots
        else
          (start_dt, start_dt + duration_minutes) ::
            availLoop (start_dt + 30) end_dt duration_minutes busy_slots)
      else [] := by
  rw [availLoop]
  split <;> rfl

/-- A conversation turn as stored by `Chat.add_to_history`
(src/langchain_chat.py line 126): `{"role": role, "content": message}`. -/
structure Turn where
  role : String
  content : String
deriving DecidableEq, Repr

/-- The state of a `Chat` instance (src/langchain_chat.py).  The LLM, tools
and system prompt are configuration; the only mutable state is
`self.chat_history`. -/
structure Chat where
  chat_history : List Turn
deriving DecidableEq, Repr

/-- `Chat.__init__` (src/langchain_chat.py line 32): `self.chat_history = []`. -/
def Chat.new : Chat := { chat_history := [] }

/-- `Chat.add_to_history` (src/langchain_chat.py lines 122-126). -/
def Chat.add_to_history (c : Chat) (role message : String) : Chat :=
  { c with chat_history := c.chat_history ++ [{ role := role, content := message }] }

/-- `Chat.build_input_from_history` (src/langchain_chat.py lines 128-137). -/
def Chat.build_input_from_history (c : Chat) (user_input : String) : String :=
  (c.chat_history.foldl
    (fun convo msg =>
      convo ++ (if msg.role = "user" then "User: " else "Assistant: ")
        ++ msg.content ++ "\n")
    "")
  ++ "User: " ++ user_input ++ "\nAssistant:"

/-- `Chat.chat` (src/langchain_chat.py lines 139-147).  `agentRun` is the
`self.agent.run` oracle: the LangChain agent together with its tools, which
either returns a reply string or raises.  On success the user turn and the
assistant turn are appended to the history and `(response, chat_history)` is
returned; a raise before `add_to_history` leaves the history untouched. -/
def Chat.chat (agentRun : String → Except String String) (c : Chat)
    (user_input : String) : Except String (String × Chat) :=
  match agentRun (c.build_input_from_history user_input) with
  | .error e => .error e
  | .ok response =>
      let c1 := c.add_to_history "user" user_input
      let c2 := c1.add_to_history "assistant" response
      .ok (response, c2)

/-- One entry of the `ChatSessions` dict (src/app.py line 20):
`{'chat_instance': Chat(), 'chat_history': []}`. -/
structure SessionState where
  chat_instance : Chat
  chat_history : List Turn
deriving DecidableEq, Repr

/-- The inbound socket payload of the message handler (src/app.py line 32):
a dict that may or may not carry the key `'message'`. -/
structure Payload where
  message : Option String
deriving DecidableEq, Repr

/-- What a handler emits back over the socket: `emit('response', {...})` or
`emit('error', {...})` (src/app.py lines 39 and 43). -/
inductive Emitted
  | response (message : String)
  | error (error : String)
deriving DecidableEq, Repr

/-- The `ChatSessions` dict (src/app.py line 10), as a map from SID. -/
def Sessions : Type := String → Option SessionState

/-- `handle_connect` (src/app.py lines 12-21): unconditionally stores a fresh
`Chat` instance and an empty history under the connecting SID —
`ChatSessions[sid] = {'chat_instance': Chat(), 'chat_history': []}` —
whether or not the SID is already present. -/
def handle_connect (sessions : Sessions) (sid : String) : Sessions :=
  fun s => if s = sid then some { chat_instance := Chat.new, chat_history := [] }
           else sessions s

/-- `handle_message` (src/app.py lines 23-43).  Everything in the `try` block
is modelled; any raise (missing session → `KeyError`, or `chat.chat` raising)
reaches the `except` branch, which emits a structured error and performs no
session mutation.  On success the chat instance is updated in place and
`ChatSessions[sid]['chat_history']` is assigned the returned history. -/
def handle_message (agentRun : String → Except String String)
    (sessions : Sessions) (sid : String) (user_input : Payload) :
    Sessions × Emitted :=
  let message := user_input.message.getD ""
  match sessions sid with
  | none => (sessions, .error "KeyError")
  | some sess =>
      match sess.chat_instance.chat agentRun message with
      | .error e => (sessions, .error e)
      | .ok (response, chat1) =>
          (fun s => if s = sid then
              some { chat_instance := chat1, chat_history := chat1.chat_history }
            else sessions s,
           .response response)

/-- `handle_disconnect` (src/app.py lines 45-54): removes the SID's session. -/
def handle_disconnect (sessions : Sessions) (sid : String) : Sessions :=
  fun s => if s = sid then none else sessions s

/-- Spec-side predicate: slots are strictly chronologically ordered
(each slot starts strictly before every later one). -/
def chronOrdered (slots : List (Int × Int)) : Prop :=
  slots.Pairwise (fun a b => a.1 < b.1)

/-- Spec-side predicate: slots are pairwise non-overlapping under the
half-open reading (one of each pair ends no later than the other starts). -/
def pairwiseNonOverlapping (slots : List (Int × Int)) : Prop :=
  slots.Pairwise (fun a b => a.2 ≤ b.1 ∨ b.2 ≤ a.1)

/-- Soundness of the scan loop: every returned slot starts at or after the
cursor, has length exactly `duration_minutes`, ends inside the window, and
overlaps no busy interval. -/
theorem availLoop_mem_sound (end_dt duration_minutes : Int)
    (busy_slots : List (Int × Int)) :
    ∀ (start_dt s e : Int), (s, e) ∈ availLoop start_dt end_dt duration_minutes busy_slots →
      start_dt ≤ s ∧ e = s + duration_minutes ∧ e ≤ end_dt ∧
        ∀ b ∈ busy_slots, overlaps s e b = false := by
  intro start_dt
  generalize hn : (end_dt - duration_minutes - start_dt + 30).toNat = n
  induction n using Nat.strong_induction_on generalizing start_dt with
  | _ n ih =>
    intro s e hmem
    rw [availLoop_eq] at hmem
    by_cases hc : start_dt + duration_minutes ≤ end_dt
    · rw [if_pos hc] at hmem
      have hrec := ih ((end_dt - duration_minutes - (start_dt + 30) + 30).toNat)
        (by omega) (start_dt + 30) rfl s e
      rcases hlt : busy_slots.any
          (fun busy => overlaps start_dt (start_dt + duration_minutes) busy) with _ | _
      · rw [hlt, if_neg (by simp)] at hmem
        rcases List.mem_cons.mp hmem with heq | htail
        · injection heq with hs he
          subst hs; subst he
          refine ⟨le_refl _, rfl, hc, fun b hb => ?_⟩
          exact Bool.not_eq_true _ ▸ Bool.of_not_eq_true ((List.any_eq_false.mp hlt) b hb)
        · obtain ⟨h1, h2, h3, h4⟩ := hrec htail
          exact ⟨by omega, h2, h3, h4⟩
      · rw [hlt, if_pos rfl] at hmem
        obtain ⟨h1, h2, h3, h4⟩ := hrec hmem
        exact ⟨by omega, h2, h3, h4⟩
    · rw [if_neg hc] at hmem
      exact absurd hmem (List.not_mem_nil _)

/-- Completeness of the scan loop at one candidate: a candidate on the 30-minute
stride grid that fits in the window and overlaps no busy interval is returned. -/
theorem availLoop_mem_intro (end_dt duration_minutes : Int)
    (busy_slots : List (Int × Int)) :
    ∀ (k : Nat) (start_dt s : Int), s = start_dt + 30 * k →
      s + duration_minutes ≤ end_dt →
      (∀ b ∈ busy_slots, overlaps s (s + duration_minutes) b = false) →
      (s, s + duration_minutes) ∈ availLoop start_dt end_dt duration_minutes busy_slots := by
  intro k
  induction k with
  | zero =>
    intro start_dt s hs hfit hov
    have hs' : s = start_dt := by omega
    subst hs'
    rw [availLoop_eq, if_pos hfit]
    have hany : busy_slots.any (fun busy => overlaps s (s + duration_minutes) busy) = false :=
      List.any_eq_false.mpr fun b hb => by simp [hov b hb]
    rw [hany, if_neg (by simp)]
    exact List.mem_cons_self _ _
  | succ k ih =>
    intro start_dt s hs hfit hov
    have hc : start_dt + duration_minutes ≤ end_dt := by
      have : (0:Int) ≤ 30 * ((k:Int) + 1) := by positivity
      push_cast at hs
      omega
    rw [availLoop_eq, if_pos hc]
    have hmem := ih (start_dt + 30) s (by push_cast at hs ⊢; ring_nf; ring_nf at hs; omega)
      hfit hov
    by_cases hany : busy_slots.any
        (fun busy => overlaps start_dt (start_dt + duration_minutes) busy) = true
    · rw [if_pos hany]
      exact hmem
    · rw [if_neg hany]
      exact List.mem_cons_of_mem _ hmem

/-- When the slot length is at most the 30-minute stride, the returned slots
are strictly ordered by start and each ends no later than the next starts. -/
theorem availLoop_pairwise (end_dt duration_minutes : Int)
    (busy_slots : List (Int × Int)) (hdur : duration_minutes ≤ 30) :
    ∀ start_dt, (availLoop start_dt end_dt duration_minutes busy_slots).Pairwise
      (fun a b => a.1 < b.1 ∧ a.2 ≤ b.1) := by
  intro start_dt
  generalize hn : (end_dt - duration_minutes - start_dt + 30).toNat = n
  induction n using Nat.strong_induction_on generalizing start_dt with
  | _ n ih =>
    rw [availLoop_eq]
    by_cases hc : start_dt + duration_minutes ≤ end_dt
    · rw [if_pos hc]
      have hrest := ih ((end_dt - duration_minutes - (start_dt + 30) + 30).toNat)
        (by omega) (start_dt + 30) rfl
      have hlo : ∀ x ∈ availLoop (start_dt + 30) end_dt duration_minutes busy_slots,
          start_dt + 30 ≤ x.1 := by
        intro x hx
        obtain ⟨h1, _, _, _⟩ :=
          availLoop_mem_sound end_dt duration_minutes busy_slots (start_dt + 30) x.1 x.2
            (by simpa using hx)
        exact h1
      split
      · exact hrest
      · exact List.pairwise_cons.mpr
          ⟨fun x hx => ⟨by have := hlo x hx; omega, by have := hlo x hx; omega⟩, hrest⟩
    · rw [if_neg hc]
      exact List.Pairwise.nil

/-- A `ChatSessions` map that already has a session (with non-empty history)
stored under SID `"a"`, used to exhibit duplicate-connect behaviour. -/
def occupiedSessions : Sessions :=
  fun s =>
    if s = "a" then
      some { chat_instance := { chat_history := [{ role := "user", content := "hi" }] },
             chat_history := [{ role := "user", content := "hi" }] }
    else none

/-- C1: every slot in the free-slot list returned by
`get_available_slots_on_calender` for a window with `start < end` is fully
contained in the window, has length exactly `duration_minutes`, and overlaps
no fetched busy interval under the half-open test. -/
theorem C1_free_slots_sound
    (backend : Int → Int → Except String (List (Int × Int)))
    (start endT duration_minutes : Int)
    (available_slots busy_slots : List (Int × Int))
    (hwin : start < endT)
    (hres : get_available_slots_on_calender backend start endT duration_minutes =
      .ok (available_slots, busy_slots)) :
    ∀ s e, (s, e) ∈ available_slots →
      start ≤ s ∧ e ≤ endT ∧ e = s + duration_minutes ∧
        ∀ b ∈ busy_slots, overlaps s e b = false := by
  intro s e hmem
  unfold get_available_slots_on_calender at hres
  cases hb : backend start endT with
  | error msg => rw [hb] at hres; cases hres
  | ok bl =>
      rw [hb] at hres
      simp only [Except.ok.injEq, Prod.mk.injEq] at hres
      obtain ⟨h1, h2⟩ := hres
      subst h1; subst h2
      obtain ⟨ha, hlen, hin, hov⟩ :=
        availLoop_mem_sound endT duration_minutes bl start s e hmem
      exact ⟨ha, hin, hlen, hov⟩

/-- Witness for C1 at Scenario A's window, checking the first returned slot. -/
theorem C1_free_slots_sound_witness :
    (540:Int) ≤ 540 ∧ (570:Int) ≤ 720 ∧ (570:Int) = 540 + 30 ∧
      ∀ b ∈ [((570:Int), (600:Int))], overlaps 540 570 b = false :=
  C1_free_slots_sound (fun _ _ => .ok [(570, 600)]) 540 720 30
    [(540, 570), (600, 630), (630, 660), (660, 690), (690, 720)] [(570, 600)]
    (by norm_num)
    (by simp [get_available_slots_on_calender, availLoop_eq, overlaps])
    540 570 (by simp)

/-- C2 counterexample: with duration 60 (> the hardcoded 30-minute stride) and
no busy intervals, the window 0–90 yields the slots (0,60) and (30,90), which
overlap — so the returned list is not pairwise non-overlapping for every
positive duration. -/
theorem C2_counterexample :
    (0:Int) < 60 ∧
    get_available_slots_on_calender (fun _ _ => .ok []) 0 90 60 =
      .ok ([(0, 60), (30, 90)], []) ∧
    ¬ pairwiseNonOverlapping [(0, 60), (30, 90)] := by
  refine ⟨by norm_num, ?_, ?_⟩
  · simp [get_available_slots_on_calender, availLoop_eq, overlaps]
  · simp [pairwiseNonOverlapping]

/-- C2 amended: for every duration with `0 < duration_minutes ≤ 30` (in
particular the default 30), the free-slot list is strictly chronologically
ordered and pairwise non-overlapping. -/
theorem C2_amended_ordered_nonoverlapping
    (backend : Int → Int → Except String (List (Int × Int)))
    (start endT duration_minutes : Int)
    (available_slots busy_slots : List (Int × Int))
    (hdpos : 0 < duration_minutes) (hdle : duration_minutes ≤ 30)
    (hres : get_available_slots_on_calender backend start endT duration_minutes =
      .ok (available_slots, busy_slots)) :
    chronOrdered available_slots ∧ pairwiseNonOverlapping available_slots := by
  unfold get_available_slots_on_calender at hres
  cases hb : backend start endT with
  | error msg => rw [hb] at hres; cases hres
  | ok bl =>
      rw [hb] at hres
      simp only [Except.ok.injEq, Prod.mk.injEq] at hres
      obtain ⟨h1, h2⟩ := hres
      subst h1; subst h2
      have hp := availLoop_pairwise endT duration_minutes bl hdle start
      exact ⟨hp.imp fun h => h.1, hp.imp fun h => Or.inl h.2⟩

/-- Witness for the amended C2 at Scenario A. -/
theorem C2_amended_witness :
    chronOrdered [(540, 570), (600, 630), (630, 660), (660, 690), (690, 720)] ∧
    pairwiseNonOverlapping [(540, 570), (600, 630), (630, 660), (660, 690), (690, 720)] :=
  C2_amended_ordered_nonoverlapping (fun _ _ => .ok [(570, 600)]) 540 720 30
    [(540, 570), (600, 630), (630, 660), (660, 690), (690, 720)] [(570, 600)]
    (by norm_num) (by norm_num)
    (by simp [get_available_slots_on_calender, availLoop_eq, overlaps])

/-- C3 counterexample: with `start = 10 ≥ end = 5` the fetch does not fail with
`InvalidWindow`; the free/busy backend is still consulted (the result tracks
the backend's answer: a successful backend gives `.ok ([], busy)`, a raising
backend propagates its exception). -/
theorem C3_counterexample :
    get_available_slots_on_calender (fun _ _ => .ok [(0, 1)]) 10 5 30 =
      .ok ([], [(0, 1)]) ∧
    get_available_slots_on_calender (fun _ _ => .error "network down") 10 5 30 =
      .error (.BackendException "network down") ∧
    get_available_slots_on_calender (fun _ _ => .ok [(0, 1)]) 10 5 30 ≠
      .error .InvalidWindow := by
  have h1 : get_available_slots_on_calender (fun _ _ => .ok [(0, 1)]) 10 5 30 =
      .ok ([], [(0, 1)]) := by
    simp [get_available_slots_on_calender, availLoop_eq]
  refine ⟨h1, rfl, ?_⟩
  rw [h1]
  simp

/-- C3 amended: the source performs no window validation at all.  With
`start ≥ end` (and a positive duration) the free/busy query is still issued:
if the backend answers, the call returns an empty free-slot list together with
the fetched busy list, and a backend exception propagates unchanged;
`InvalidWindow` is never produced. -/
theorem C3_amended_no_validation
    (start endT duration_minutes : Int)
    (hw : endT ≤ start) (hdpos : 0 < duration_minutes) :
    (∀ (backend : Int → Int → Except String (List (Int × Int))) busy_slots,
        backend start endT = .ok busy_slots →
        get_available_slots_on_calender backend start endT duration_minutes =
          .ok ([], busy_slots)) ∧
    (∀ (backend : Int → Int → Except String (List (Int × Int))) msg,
        backend start endT = .error msg →
        get_available_slots_on_calender backend start endT duration_minutes =
          .error (.BackendException msg)) := by
  constructor
  · intro backend busy hb
    simp only [get_available_slots_on_calender, hb]
    rw [availLoop_eq, if_neg (by omega)]
  · intro backend msg hb
    simp only [get_available_slots_on_calender, hb]

/-- Witness for the amended C3 at `start = 10`, `end = 5`. -/
theorem C3_amended_witness :
    get_available_slots_on_calender (fun _ _ => .ok [(0, 1)]) 10 5 30 =
      .ok ([], [(0, 1)]) ∧
    get_available_slots_on_calender (fun _ _ => .error "down") 10 5 30 =
      .error (.BackendException "down") :=
  ⟨(C3_amended_no_validation 10 5 30 (by norm_num) (by norm_num)).1
      (fun _ _ => .ok [(0, 1)]) [(0, 1)] rfl,
   (C3_amended_no_validation 10 5 30 (by norm_num) (by norm_num)).2
      (fun _ _ => .error "down") "down" rfl⟩

/-- C4 counterexample: SID `"a"` already exists in `occupiedSessions` (with a
non-empty history), yet `handle_connect` does not fail — it overwrites the
entry with a fresh agent and empty history, losing the previous session. -/
theorem C4_counterexample :
    occupiedSessions "a" ≠ none ∧
    handle_connect occupiedSessions "a" "a" =
      some { chat_instance := Chat.new, chat_history := [] } ∧
    handle_connect occupiedSessions "a" "a" ≠ occupiedSessions "a" := by
  refine ⟨by simp [occupiedSessions], by simp [handle_connect], ?_⟩
  simp [handle_connect, occupiedSessions, Chat.new]

/-- C4 amended: connect never fails.  For every id it stores a fresh agent
instance with empty history under that id — creating the session when the id
is absent and replacing the existing session when it is present — and leaves
every other id untouched. -/
theorem C4_amended_connect_overwrites (sessions : Sessions) (sid : String) :
    handle_connect sessions sid sid =
      some { chat_instance := Chat.new, chat_history := [] } ∧
    ∀ s, s ≠ sid → handle_connect sessions sid s = sessions s := by
  refine ⟨by simp [handle_connect], fun s hs => ?_⟩
  simp [handle_connect, hs]

/-- Witness for the amended C4 on an empty session map. -/
theorem C4_amended_witness :
    handle_connect (fun _ => none) "a" "a" =
      some { chat_instance := Chat.new, chat_history := [] } ∧
    handle_connect (fun _ => none) "a" "b" = (fun _ => none : Sessions) "b" :=
  ⟨(C4_amended_connect_overwrites (fun _ => none) "a").1,
   (C4_amended_connect_overwrites (fun _ => none) "a").2 "b" (by decide)⟩

/-- C5: if the agent (or one of its tools) raises while handling a message,
`handle_message` emits a structured error and leaves the session map — in
particular the stored conversation history — exactly as it was; no partial
turn is appended. -/
theorem C5_failure_preserves_history
    (agentRun : String → Except String String) (sessions : Sessions)
    (sid : String) (user_input : Payload) (sess : SessionState) (e : String)
    (hsess : sessions sid = some sess)
    (hfail : sess.chat_instance.chat agentRun (user_input.message.getD "") = .error e) :
    handle_message agentRun sessions sid user_input = (sessions, .error e) := by
  simp only [handle_message, hsess, hfail]

/-- Witness for C5: an agent that always raises leaves the one-session map
untouched and yields the structured error. -/
theorem C5_failure_witness :
    handle_message (fun _ => .error "boom")
        (fun s => if s = "a" then some { chat_instance := Chat.new, chat_history := [] }
                  else none)
        "a" { message := some "hi" } =
      ((fun s => if s = "a" then some { chat_instance := Chat.new, chat_history := [] }
                 else none : Sessions),
       .error "boom") :=
  C5_failure_preserves_history (fun _ => .error "boom") _ "a" { message := some "hi" }
    { chat_instance := Chat.new, chat_history := [] } "boom" (by simp) rfl

/-- C6: when the input parses neither as an ISO timestamp nor as a
natural-language time, `book_slot_on_calendar` returns the clarification
message and makes no insert call on the calendar backend. -/
theorem C6_unparseable_no_booking
    (fromisoformat dateparser_parse : String → Option Int) (uuid : String)
    (strftime : Int → String) (insertBackend : Event → Except String (Option String))
    (slot : String)
    (hiso : fromisoformat slot = none) (hnl : dateparser_parse slot = none) :
    book_slot_on_calendar fromisoformat dateparser_parse uuid strftime insertBackend slot =
      (.ok "Could not understand the time slot. Please use a format like '2025-05-30T09:00:00+05:30'.",
       none) := by
  simp only [book_slot_on_calendar, parse_slot, hiso, hnl]

/-- Witness for C6 with parsers that reject the input. -/
theorem C6_unparseable_witness :
    book_slot_on_calendar (fun _ => none) (fun _ => none) "u" (fun _ => "t")
        (fun _ => .ok (some "link")) "gibberish" =
      (.ok "Could not understand the time slot. Please use a format like '2025-05-30T09:00:00+05:30'.",
       none) :=
  C6_unparseable_no_booking (fun _ => none) (fun _ => none) "u" (fun _ => "t")
    (fun _ => .ok (some "link")) "gibberish" rfl rfl

/-- C7: Scenario A.  Window 09:00–12:00 (minutes 540–720), one busy interval
09:30–10:00 (570–600), duration 30: the free slots are exactly 09:00–09:30,
10:00–10:30, 10:30–11:00, 11:00–11:30 and 11:30–12:00, in that order. -/
theorem C7_scenario_A :
    get_available_slots_on_calender (fun _ _ => .ok [(570, 600)]) 540 720 30 =
      .ok ([(540, 570), (600, 630), (630, 660), (660, 690), (690, 720)],
           [(570, 600)]) := by
  simp [get_available_slots_on_calender, availLoop_eq, overlaps]

/-- C8: a busy interval that merely touches a candidate slot (its end equals
the candidate's start, or its start equals the candidate's end) does not
overlap it, and such a candidate — on the stride grid and not overlapped by
any other busy interval — is accepted into the free-slot list. -/
theorem C8_touching_not_excluded
    (start endT duration_minutes : Int) (busy_slots : List (Int × Int))
    (b : Int × Int) (k : Nat) (c : Int)
    (hgrid : c = start + 30 * k) (hfit : c + duration_minutes ≤ endT)
    (htouch : b.2 = c ∨ b.1 = c + duration_minutes)
    (hothers : ∀ b' ∈ busy_slots, b' ≠ b →
       overlaps c (c + duration_minutes) b' = false) :
    overlaps c (c + duration_minutes) b = false ∧
      (c, c + duration_minutes) ∈ availLoop start endT duration_minutes busy_slots := by
  have hb : overlaps c (c + duration_minutes) b = false := by
    rcases htouch with h | h <;>
      · simp only [overlaps, h, decide_eq_false_iff_not]
        omega
  refine ⟨hb, availLoop_mem_intro endT duration_minutes busy_slots k start c hgrid hfit ?_⟩
  intro b' hb'
  by_cases heq : b' = b
  · rw [heq]; exact hb
  · exact hothers b' hb' heq

/-- Witness for C8: busy interval (30,60) touches candidate (0,30) on the
right; the candidate is accepted. -/
theorem C8_touching_witness :
    overlaps 0 (0 + 30) (30, 60) = false ∧
      ((0:Int), (0:Int) + 30) ∈ availLoop 0 60 30 [(30, 60)] :=
  C8_touching_not_excluded 0 60 30 [(30, 60)] (30, 60) 0 0
    (by norm_num) (by norm_num) (Or.inr (by norm_num))
    (by intro b' hb' hne; simp only [List.mem_singleton] at hb'; exact absurd hb' hne)

/-- C9: whenever the input time parses (by either parser), the event handed to
the calendar insert starts at the parsed instant and ends exactly 30 minutes
later, for every backend behaviour. -/
theorem C9_booked_event_is_30_minutes
    (fromisoformat dateparser_parse : String → Option Int) (uuid : String)
    (strftime : Int → String) (insertBackend : Event → Except String (Option String))
    (slot : String) (t : Int)
    (hparse : parse_slot fromisoformat dateparser_parse slot = some t) :
    ∃ ev : Event,
      (book_slot_on_calendar fromisoformat dateparser_parse uuid strftime
          insertBackend slot).2 = some ev ∧
        ev.startT = t ∧ ev.endT = ev.startT + 30 := by
  simp only [book_slot_on_calendar, hparse]
  refine ⟨{ summary := "Meeting with Zeeshan", description := "Auto-scheduled via assistant.",
            startT := t, endT := t + 30, timeZone := "Asia/Kolkata", requestId := uuid },
          ?_, rfl, rfl⟩
  generalize insertBackend _ = r
  cases r <;> rfl

/-- Witness for C9 with an ISO parser returning minute 600. -/
theorem C9_booked_event_witness :
    ∃ ev : Event,
      (book_slot_on_calendar (fun _ => some 600) (fun _ => none) "u" (fun _ => "t")
          (fun _ => .ok (some "link")) "2025-05-30T10:00:00+05:30").2 = some ev ∧
        ev.startT = 600 ∧ ev.endT = ev.startT + 30 :=
  C9_booked_event_is_30_minutes (fun _ => some 600) (fun _ => none) "u" (fun _ => "t")
    (fun _ => .ok (some "link")) "2025-05-30T10:00:00+05:30" 600 rfl

/-- C10: a payload without the `'message'` key is handled exactly like a
payload carrying the empty string — `user_input.get('message','')` substitutes
`''` and the turn proceeds; extraction never errors. -/
theorem C10_missing_message_key_defaults_empty
    (agentRun : String → Except String String) (sessions : Sessions) (sid : String) :
    handle_message agentRun sessions sid { message := none } =
      handle_message agentRun sessions sid { message := some "" } := rfl
